import Mathlib

/-!
Verification of the rust-http message-framing engine against its
specification.  The Rust sources under `src/src/` are embedded shallowly:
byte slices (`&[u8]`) become `List Nat`, Rust `String`s produced by
`String::from_utf8_lossy` are kept as their underlying byte lists (all
inputs appearing in the theorems below are ASCII, where the conversion is
the identity), fallible functions return `Except`, and `&mut` state is
passed and returned explicitly.  `usize` subtraction in the one place the
source can underflow is modelled wrapping modulo `2 ^ 64`, matching
release-mode Rust; every theorem below only evaluates that code where no
underflow occurs.
-/

/-- ASCII bytes of a string literal. -/
def ascii (s : String) : List Nat :=
  s.data.map Char.toNat

/-- Decimal representation of a usize, as produced by Rust `to_string`. -/
def natToBytes (n : Nat) : List Nat :=
  ascii (toString n)

/-- The two-byte CRLF sequence. -/
def CRLFb : List Nat := [13, 10]

/-- Index of the first CRLF window, as in
`bytes.windows(2).position(|w| w == CRLF)`. -/
def crlfPos : List Nat → Option Nat
  | 13 :: 10 :: _ => some 0
  | _ :: rest => (crlfPos rest).map (· + 1)
  | [] => none

/-- Rust slice `split` on one separator byte: always yields at least one
(possibly empty) part. -/
def splitOnByte (sep : Nat) : List Nat → List (List Nat)
  | [] => [[]]
  | b :: rest =>
    if b = sep then
      [] :: splitOnByte sep rest
    else
      match splitOnByte sep rest with
      | t :: ts => (b :: t) :: ts
      | [] => [[b]]

/-- Rust `splitn(2, |&b| b == b':')`: split at the first colon only;
`none` when no colon occurs (one part, so `parts.len() != 2`). -/
def splitFirstColon : List Nat → Option (List Nat × List Nat)
  | [] => none
  | b :: rest =>
    if b = 58 then
      some ([], rest)
    else
      (splitFirstColon rest).map (fun p => (b :: p.1, p.2))

/-- Byte class of `u8::is_ascii_whitespace`, used by `trim_ascii`. -/
def isAsciiWs (b : Nat) : Bool :=
  b == 32 || b == 9 || b == 10 || b == 12 || b == 13

/-- Byte class of Unicode White_Space restricted to ASCII, used by
`str::trim`. -/
def isStrWs (b : Nat) : Bool :=
  b == 32 || (9 ≤ b && b ≤ 13)

/-- Trim bytes satisfying `p` from both ends. -/
def trimWith (p : Nat → Bool) (bs : List Nat) : List Nat :=
  ((bs.dropWhile p).reverse.dropWhile p).reverse

/-- Rust `<[u8]>::trim_ascii`. -/
def trimAscii (bs : List Nat) : List Nat := trimWith isAsciiWs bs

/-- Rust `str::trim` (on ASCII input). -/
def strTrim (bs : List Nat) : List Nat := trimWith isStrWs bs

/-- ASCII lowercase of one byte, byte-level `to_lowercase`. -/
def toLowerByte (b : Nat) : Nat :=
  if 65 ≤ b ∧ b ≤ 90 then b + 32 else b

/-- ASCII lowercase of a byte string. -/
def toLowerBytes (bs : List Nat) : List Nat :=
  bs.map toLowerByte

/-- Accumulating value of decimal digit bytes read left to right, as
Rust folds `acc * 10 + d`; `none` on a non-digit. -/
def decDigitsFrom (acc : Nat) : List Nat → Option Nat
  | [] => some acc
  | b :: rest =>
    if 48 ≤ b ∧ b ≤ 57 then
      decDigitsFrom (acc * 10 + (b - 48)) rest
    else
      none

/-- Value of a list of decimal digit bytes, `none` on a non-digit. -/
def decDigits (bs : List Nat) : Option Nat :=
  decDigitsFrom 0 bs

/-- Hex digit value of one byte. -/
def hexDigit (b : Nat) : Option Nat :=
  if 48 ≤ b ∧ b ≤ 57 then some (b - 48)
  else if 97 ≤ b ∧ b ≤ 102 then some (b - 97 + 10)
  else if 65 ≤ b ∧ b ≤ 70 then some (b - 65 + 10)
  else none

/-- Accumulating value of hex digit bytes read left to right, as Rust
folds `acc * 16 + d`; `none` on a non-digit. -/
def hexDigitsFrom (acc : Nat) : List Nat → Option Nat
  | [] => some acc
  | b :: rest =>
    match hexDigit b with
    | some d => hexDigitsFrom (acc * 16 + d) rest
    | none => none

/-- Value of a list of hex digit bytes, `none` on a non-digit. -/
def hexDigits (bs : List Nat) : Option Nat :=
  hexDigitsFrom 0 bs

/-- Rust `str::parse::<usize>`: optional leading plus sign, then one or
more decimal digits, rejecting values that overflow `usize`.  Rust
checks overflow at every accumulation step; since each prefix value is
at most the final value, the single final bound is equivalent. -/
def parseUsize (bs : List Nat) : Option Nat :=
  let digits := match bs with
    | 43 :: rest => rest
    | _ => bs
  if digits.isEmpty then none
  else
    match decDigits digits with
    | some v => if v < 2 ^ 64 then some v else none
    | none => none

/-- Rust `usize::from_str_radix(_, 16)`: optional leading plus sign, then
one or more hex digits, rejecting overflow. -/
def parseHexUsize (bs : List Nat) : Option Nat :=
  let digits := match bs with
    | 43 :: rest => rest
    | _ => bs
  if digits.isEmpty then none
  else
    match hexDigits digits with
    | some v => if v < 2 ^ 64 then some v else none
    | none => none

/-- Wrapping `usize` subtraction (release-mode Rust semantics). -/
def wsub (a b : Nat) : Nat :=
  (a + (2 ^ 64 - b % 2 ^ 64)) % 2 ^ 64

/-! ## Error types, from `src/src/message/error.rs` -/

/-- `HeadersError` from error.rs (header parsing uses the malformed-field
constructor, body framing the other two). -/
inductive HeadersError
  | malformedHeader
  | invalidHeaderFields
  | invalidContentLength
deriving DecidableEq, Repr

/-- `BodyError` from error.rs (the IO constructor is not modelled: no
theorem below reaches transport failures). -/
inductive BodyError
  | header (e : HeadersError)
  | tooLong
  | malformedChunkedSize
  | malformedChunkedBody
deriving DecidableEq, Repr

/-- `VersionError` from error.rs. -/
inductive VersionError
  | invalidHTTPVersion
deriving DecidableEq, Repr

/-- `RequestLineError` from error.rs (the source misspells InvalidMehtod;
the name is kept). -/
inductive RequestLineError
  | malformedRequestLine
  | invalidMehtod
  | invalidHTTPVersion
deriving DecidableEq, Repr

/-- `StatusLineError` from error.rs. -/
inductive StatusLineError
  | malformedStatusLine
  | invalidStatusCode
  | invalidHTTPVersion
deriving DecidableEq, Repr

/-- `RequestError` from error.rs (IO constructor not modelled). -/
inductive RequestError
  | requestLine (e : RequestLineError)
  | header (e : HeadersError)
  | body (e : BodyError)
  | malformedRequest
  | bodyTooLong
  | malformedChunkedSize
  | malformedChunkedBody
deriving DecidableEq, Repr

/-! ## Headers, from `src/src/message/headers.rs`

Rust stores a `HashMap<String, String>` whose keys are lowercased on
insertion; it is modelled as an association list with unique keys. -/

/-- `is_valid_token` from headers.rs:11, the RFC 9110 tchar class. -/
def is_valid_token (bytes : List Nat) : Bool :=
  bytes.all (fun b =>
    (65 ≤ b && b ≤ 90) || (97 ≤ b && b ≤ 122) || (48 ≤ b && b ≤ 57) ||
    b == 33 || b == 35 || b == 36 || b == 37 || b == 38 || b == 39 ||
    b == 42 || b == 43 || b == 45 || b == 46 || b == 94 || b == 95 ||
    b == 96 || b == 124 || b == 126)

/-- `is_valid_field_value` from headers.rs:34. -/
def is_valid_field_value (bytes : List Nat) : Bool :=
  bytes.all (fun b =>
    b == 9 || b == 32 || (33 ≤ b && b ≤ 126) || (128 ≤ b && b ≤ 255))

/-- The header map, `Headers(HashMap<String, String>)`. -/
structure Headers where
  entries : List (List Nat × List Nat)
deriving DecidableEq, Repr

/-- First value stored under a key. -/
def getEntry (key : List Nat) : List (List Nat × List Nat) → Option (List Nat)
  | [] => none
  | e :: rest => if e.1 = key then some e.2 else getEntry key rest

/-- Replace the value under a key, inserting at the end when absent
(`HashMap::insert`; entry order is not observable, serialization sorts). -/
def setEntry (key value : List Nat) :
    List (List Nat × List Nat) → List (List Nat × List Nat)
  | [] => [(key, value)]
  | e :: rest =>
    if e.1 = key then (key, value) :: rest else e :: setEntry key value rest

/-- `Headers::new`. -/
def Headers.new : Headers := ⟨[]⟩

/-- `Headers::get`, case-insensitive lookup (headers.rs:86). -/
def Headers.get (h : Headers) (name : List Nat) : Option (List Nat) :=
  getEntry (toLowerBytes name) h.entries

/-- `Headers::set`, overwriting insert under the lowercased name
(headers.rs:68). -/
def Headers.set (h : Headers) (name value : List Nat) : Headers :=
  ⟨setEntry (toLowerBytes name) value h.entries⟩

/-- `Headers::add`, comma-folding on a duplicate name (headers.rs:53). -/
def Headers.add (h : Headers) (name value : List Nat) : Headers :=
  let key := toLowerBytes name
  match getEntry key h.entries with
  | some old => ⟨setEntry key (old ++ [44] ++ value) h.entries⟩
  | none => ⟨h.entries ++ [(key, value)]⟩

/-- `Headers::remove` (headers.rs:78). -/
def Headers.remove (h : Headers) (name : List Nat) : Headers :=
  ⟨h.entries.filter (fun e => decide (e.1 ≠ toLowerBytes name))⟩

/-- `Headers::is_empty`. -/
def Headers.isEmptyMap (h : Headers) : Bool :=
  h.entries.isEmpty

/-- `Headers::parse` (headers.rs:94): consume one field line ending in
CRLF, returning bytes consumed (0 when no CRLF is buffered yet, 2 on the
blank terminator line).  The parser drafts call this method `parse_one`;
the contract is identical. -/
def Headers.parse (h : Headers) (bytes : List Nat) :
    Except HeadersError (Nat × Headers) :=
  match crlfPos bytes with
  | none => .ok (0, h)
  | some e =>
    if e = 0 then .ok (2, h)
    else
      match splitFirstColon (bytes.take e) with
      | none => .error .malformedHeader
      | some (nameBytes, valueRaw) =>
        let valueBytes := trimAscii valueRaw
        if is_valid_token nameBytes && is_valid_field_value valueBytes then
          .ok (e + 2, h.add nameBytes valueBytes)
        else
          .error .malformedHeader

/-! ## Body framing, from `src/src/message/body.rs` -/

/-- `Encoding` from body.rs:8. -/
inductive Encoding
  | nothing (size : Nat)
  | chunked
deriving DecidableEq, Repr

/-- `ChunkedState` from body.rs:15. -/
inductive ChunkedState
  | size
  | data (size : Nat)
deriving DecidableEq, Repr

/-- `BodyParser` from body.rs:21. -/
structure BodyParser where
  encoding : Option Encoding
  chunked_state : ChunkedState
  size_parsed : Nat
deriving DecidableEq, Repr

/-- `BodyParser::new`. -/
def BodyParser.new : BodyParser :=
  { encoding := none, chunked_state := .size, size_parsed := 0 }

/-- `BodyParser::set_encoding` (body.rs:45): resolve framing from the
headers, RFC 9112 message-body-length rules. -/
def BodyParser.set_encoding (p : BodyParser) (headers : Headers) :
    Except BodyError BodyParser :=
  if p.encoding.isSome then .ok p
  else
    match headers.get (ascii "Transfer-Encoding"),
        headers.get (ascii "Content-Length") with
    | some _, some _ => .error (.header .invalidHeaderFields)
    | some transmission, none =>
      if transmission = ascii "chunked" then
        .ok { p with encoding := some .chunked }
      else
        .error (.header .invalidHeaderFields)
    | none, some length =>
      match parseUsize length with
      | some cl => .ok { p with encoding := some (.nothing cl) }
      | none =>
        match (splitOnByte 44 length).map strTrim with
        | [] => .error (.header .invalidHeaderFields)
        | first :: rest =>
          if rest.all (fun v => v == first) then
            match parseUsize first with
            | some len => .ok { p with encoding := some (.nothing len) }
            | none => .error (.header .invalidContentLength)
          else
            .error (.header .invalidHeaderFields)
    | none, none => .ok { p with encoding := some (.nothing 0) }

/-- `BodyParser::parse_chunked_body` (body.rs:100): one step of the
chunked sub-state machine over the buffered unconsumed bytes, returning
the updated parser, body, headers, the bytes consumed and the done flag.
Out-of-range indexing, which panics in Rust, is modelled with `getD`;
no theorem evaluates this definition in a state where that happens. -/
def BodyParser.parse_chunked_body (p : BodyParser) (body : List Nat)
    (headers : Headers) (bytes : List Nat) :
    Except BodyError (BodyParser × List Nat × Headers × Nat × Bool) :=
  match crlfPos bytes with
  | none => .ok (p, body, headers, 0, false)
  | some end_of_line =>
    match p.chunked_state with
    | .size =>
      match parseHexUsize (bytes.take end_of_line) with
      | some size =>
        let p1 := { p with chunked_state := .data size, size_parsed := 0 }
        if size = 0 then
          let headers1 :=
            (headers.set (ascii "Content-Length")
              (natToBytes body.length)).remove (ascii "Transfer-Encoding")
          .ok (p1, body, headers1, end_of_line + 2, true)
        else
          .ok (p1, body, headers, end_of_line + 2, false)
      | none => .error .malformedChunkedSize
    | .data size =>
      let d := wsub size p.size_parsed
      let found_end := decide (bytes.length > (d + 1) % 2 ^ 64) &&
        (bytes.getD d 0 == 13) &&
        (bytes.getD (wsub ((size + 1) % 2 ^ 64) p.size_parsed) 0 == 10)
      if !found_end && decide (bytes.length > (d + 1) % 2 ^ 64) then
        .error .malformedChunkedBody
      else
        let endq := if found_end then d else bytes.length
        let body1 := body ++ bytes.take endq
        let p1 := { p with size_parsed := (p.size_parsed + endq) % 2 ^ 64 }
        if found_end then
          .ok ({ p1 with chunked_state := .size }, body1, headers,
            endq + 2, false)
        else
          .ok (p1, body1, headers, endq, false)

/-- `BodyParser::parse_body` (body.rs:183): resolve the encoding, then
dispatch on it.  Length framing consumes at most the bytes still owed. -/
def BodyParser.parse_body (p : BodyParser) (body : List Nat)
    (headers : Headers) (bytes : List Nat) :
    Except BodyError (BodyParser × List Nat × Headers × Nat × Bool) :=
  (p.set_encoding headers).bind fun p =>
    match p.encoding with
    | some (.nothing 0) => .ok (p, body, headers, 0, true)
    | some (.nothing len) =>
      let remaining := len - body.length
      if remaining = 0 then .ok (p, body, headers, 0, true)
      else
        let to_take := min remaining bytes.length
        let body1 := body ++ bytes.take to_take
        let done := body1.length == len
        .ok (p, body1, headers, to_take, done)
    | some .chunked => p.parse_chunked_body body headers bytes
    | none => .error (.header .invalidContentLength)

/-! ## Method, from `src/src/message/method.rs` -/

/-- `Method` from method.rs. -/
inductive Method
  | get | head | post | put | delete | connect | options | trace
deriving DecidableEq, Repr

/-- `Method::parse` (method.rs:16), strict ASCII match. -/
def Method.parse (bytes : List Nat) : Except RequestLineError Method :=
  if bytes = ascii "GET" then .ok .get
  else if bytes = ascii "HEAD" then .ok .head
  else if bytes = ascii "POST" then .ok .post
  else if bytes = ascii "PUT" then .ok .put
  else if bytes = ascii "DELETE" then .ok .delete
  else if bytes = ascii "CONNECT" then .ok .connect
  else if bytes = ascii "OPTIONS" then .ok .options
  else if bytes = ascii "TRACE" then .ok .trace
  else .error .invalidMehtod

/-! ## HttpVersion, from `src/src/message/version.rs` -/

/-- `HttpVersion::from_bytes` (version.rs:9): the recognized version
literals, any other bytes fail with InvalidHTTPVersion. -/
def HttpVersion.fromBytes (bytes : List Nat) :
    Except VersionError (Nat × Nat) :=
  if bytes = ascii "1.0" then .ok (1, 0)
  else if bytes = ascii "1.1" then .ok (1, 1)
  else if bytes = ascii "2.0" then .ok (2, 0)
  else if bytes = ascii "3.0" then .ok (3, 0)
  else .error .invalidHTTPVersion

/-! ## RequestLine draft, from `src/src/message/request_line.rs`

This is the parser-object draft of the request line: the target and the
version are stored as verbatim byte strings. -/

/-- `RequestLine` from request_line.rs:7. -/
structure RequestLine where
  method : Method
  url : List Nat
  version : List Nat
deriving DecidableEq, Repr

/-- `RequestLine::default` (request_line.rs:90). -/
def RequestLine.default : RequestLine :=
  { method := .get, url := [], version := ascii "1.1" }

/-- `RequestLine::parse` (request_line.rs:51): split the first CRLF line
on SP into exactly three tokens; `none` when no CRLF is buffered yet. -/
def RequestLine.parse (bytes : List Nat) :
    Except RequestLineError (Option (RequestLine × Nat)) :=
  match crlfPos bytes with
  | none => .ok none
  | some e =>
    match splitOnByte 32 (bytes.take e) with
    | [p0, p1, p2] =>
      (Method.parse p0).bind fun method =>
        match splitOnByte 47 p2 with
        | [v0, v1] =>
          if v0 = ascii "HTTP" then
            .ok (some ({ method := method, url := p1, version := v1 }, e + 2))
          else
            .error .malformedRequestLine
        | _ => .error .malformedRequestLine
    | _ => .error .malformedRequestLine

/-! ## Request and RequestParser, from `src/src/message/request.rs` -/

/-- `Request` from request.rs:5 (the parser-object draft, with the draft
request line). -/
structure Request where
  line : RequestLine
  headers : Headers
  body : List Nat
deriving DecidableEq, Repr

/-- `ParserState` from request.rs:26. -/
inductive ParserState
  | done
  | requestLine
  | headers
  | body
deriving DecidableEq, Repr

/-- `RequestParser` from request.rs:48 (the source misspells
chuncked_state; the name is kept). -/
structure RequestParser where
  request : Request
  state : ParserState
  encoding : Option Encoding
  chuncked_state : ChunkedState
deriving DecidableEq, Repr

/-- The fresh parser built by `request_from_reader` (request.rs:272). -/
def RequestParser.new : RequestParser :=
  { request := { line := RequestLine.default
                 headers := Headers.new
                 body := [] }
    state := .requestLine
    encoding := none
    chuncked_state := .size }

/-- `RequestParser::set_encoding` (request.rs:66), identical framing
rules to `BodyParser::set_encoding` with `RequestError` errors. -/
def RequestParser.set_encoding (rp : RequestParser) :
    Except RequestError RequestParser :=
  if rp.encoding.isSome then .ok rp
  else
    match rp.request.headers.get (ascii "Transfer-Encoding"),
        rp.request.headers.get (ascii "Content-Length") with
    | some _, some _ => .error (.header .invalidHeaderFields)
    | some transmission, none =>
      if transmission = ascii "chunked" then
        .ok { rp with encoding := some .chunked }
      else
        .error (.header .invalidHeaderFields)
    | none, some length =>
      match parseUsize length with
      | some cl => .ok { rp with encoding := some (.nothing cl) }
      | none =>
        match (splitOnByte 44 length).map strTrim with
        | [] => .error (.header .invalidHeaderFields)
        | first :: rest =>
          if rest.all (fun v => v == first) then
            match parseUsize first with
            | some len => .ok { rp with encoding := some (.nothing len) }
            | none => .error (.header .invalidContentLength)
          else
            .error (.header .invalidHeaderFields)
    | none, none => .ok { rp with encoding := some (.nothing 0) }

/-- `RequestParser::parse_chunked_body` (request.rs:121): the strict
draft of the chunked decoder; a data chunk is consumed only once the
whole chunk, its CRLF delimiter and one further byte are buffered. -/
def RequestParser.parse_chunked_body (rp : RequestParser)
    (bytes : List Nat) : Except RequestError (RequestParser × Nat) :=
  match crlfPos bytes with
  | none => .ok (rp, 0)
  | some end_of_line =>
    match rp.chuncked_state with
    | .size =>
      match parseHexUsize (bytes.take end_of_line) with
      | some size =>
        let rp1 := { rp with chuncked_state := .data size }
        if size = 0 then
          let headers1 :=
            (rp1.request.headers.set (ascii "Content-Length")
              (natToBytes rp1.request.body.length)).remove
              (ascii "Transfer-Encoding")
          let req1 := { rp1.request with headers := headers1 }
          .ok ({ rp1 with state := .done, request := req1 }, end_of_line + 2)
        else
          .ok (rp1, end_of_line + 2)
      | none => .error .malformedChunkedBody
    | .data size =>
      if size + 2 ≥ bytes.length then .ok (rp, 0)
      else if bytes.getD size 0 = 13 ∧ bytes.getD (size + 1) 0 = 10 then
        let req1 := { rp.request with
                      body := rp.request.body ++ bytes.take size }
        .ok ({ rp with chuncked_state := .size, request := req1 }, size + 2)
      else
        .error .malformedChunkedBody

/-- `RequestParser::parse_body` (request.rs:179): resolve the encoding
and dispatch; length framing errors with BodyTooLong when handed more
bytes than the remaining body length. -/
def RequestParser.parse_body (rp : RequestParser) (bytes : List Nat) :
    Except RequestError (RequestParser × Nat) :=
  (rp.set_encoding).bind fun rp =>
    match rp.encoding with
    | some (.nothing 0) => .ok ({ rp with state := .done }, 0)
    | some (.nothing len) =>
      if rp.request.body.length + bytes.length > len then
        .error .bodyTooLong
      else
        let body1 := rp.request.body ++ bytes
        let rp1 := { rp with request := { rp.request with body := body1 } }
        if body1.length = len then
          .ok ({ rp1 with state := .done }, bytes.length)
        else
          .ok (rp1, bytes.length)
    | some .chunked => rp.parse_chunked_body bytes
    | none => .error (.header .invalidContentLength)

/-- `RequestParser::parse` (request.rs:216): the dispatch loop, fuelled.
Each continuing iteration consumes at least one byte, so any fuel above
the input length reproduces the Rust loop exactly; the fuel-0 fallback is
never reached in the theorems below.  `Headers::parse` stands in for the
identically-contracted `parse_one`. -/
def RequestParser.parseLoop (fuel : Nat) (rp : RequestParser)
    (bytes : List Nat) (read : Nat) :
    Except RequestError (RequestParser × Nat) :=
  match fuel with
  | 0 => .ok (rp, read)
  | fuel + 1 =>
    match rp.state with
    | .done => .ok (rp, read)
    | .requestLine =>
      match RequestLine.parse bytes with
      | .error e => .error (.requestLine e)
      | .ok none => .ok (rp, read)
      | .ok (some (rl, size)) =>
        let req1 := { rp.request with line := rl }
        RequestParser.parseLoop fuel
          { rp with state := .headers, request := req1 } bytes (read + size)
    | .headers =>
      match rp.request.headers.parse (bytes.drop read) with
      | .error e => .error (.header e)
      | .ok (n, h1) =>
        let req1 := { rp.request with headers := h1 }
        let rp1 := { rp with request := req1 }
        if n = 0 then .ok (rp1, read)
        else if n = 2 then
          RequestParser.parseLoop fuel { rp1 with state := .body } bytes
            (read + n)
        else
          RequestParser.parseLoop fuel rp1 bytes (read + n)
    | .body =>
      (rp.parse_body (bytes.drop read)).bind fun (rp1, n) =>
        if n = 0 then .ok (rp1, read)
        else RequestParser.parseLoop fuel rp1 bytes (read + n)

/-- `RequestParser::request_from_reader` (request.rs:269) with the whole
input delivered by the first read: one `parse` call over the full byte
buffer, as the reader loop performs when the transport hands everything
at once. -/
def request_from_bytes (bytes : List Nat) :
    Except RequestError (RequestParser × Nat) :=
  RequestParser.parseLoop (bytes.length + 2) RequestParser.new bytes 0

/-! ## StatusCode and StatusLine, from `src/src/message/status_line.rs` -/

/-- `StatusCode` from status_line.rs:8. -/
inductive StatusCode
  | ok | badRequest | notFound | methodNotAllowed | internalServerError
deriving DecidableEq, Repr

/-- `StatusCode::to_code` (status_line.rs:17). -/
def StatusCode.to_code : StatusCode → List Nat
  | .ok => ascii "200"
  | .badRequest => ascii "400"
  | .notFound => ascii "404"
  | .methodNotAllowed => ascii "405"
  | .internalServerError => ascii "500"

/-- `StatusCode::to_reason` (status_line.rs:27). -/
def StatusCode.to_reason : StatusCode → List Nat
  | .ok => ascii "Ok"
  | .badRequest => ascii "Bad Request"
  | .notFound => ascii "Not Found"
  | .methodNotAllowed => ascii "Method Not Allowed"
  | .internalServerError => ascii "Internal Server Error"

/-- `StatusCode::parse` (status_line.rs:38). -/
def StatusCode.parse (bytes : List Nat) :
    Except StatusLineError StatusCode :=
  if bytes = ascii "200" then .ok .ok
  else if bytes = ascii "400" then .ok .badRequest
  else if bytes = ascii "404" then .ok .notFound
  else if bytes = ascii "405" then .ok .methodNotAllowed
  else if bytes = ascii "500" then .ok .internalServerError
  else .error .invalidStatusCode

/-- `StatusLine` from status_line.rs:50, with the version an
`HttpVersion` pair. -/
structure StatusLine where
  version : Nat × Nat
  status_code : StatusCode
deriving DecidableEq, Repr

/-- `StatusLine::new` (status_line.rs:57). -/
def StatusLine.new (code : StatusCode) : StatusLine :=
  { version := (1, 1), status_code := code }

/-- `StatusLine::from_line` (status_line.rs:100): split on SP, accept
two or three parts, require an HTTP/version first part and a recognized
status code second part. -/
def StatusLine.from_line (line : List Nat) :
    Except StatusLineError StatusLine :=
  let parts := splitOnByte 32 line
  if parts.length ≠ 3 ∧ parts.length ≠ 2 then
    .error .malformedStatusLine
  else
    match splitOnByte 47 (parts.getD 0 []) with
    | [v0, v1] =>
      if v0 = ascii "HTTP" then
        match HttpVersion.fromBytes v1 with
        | .ok version =>
          (StatusCode.parse (parts.getD 1 [])).bind fun status_code =>
            .ok { version := version, status_code := status_code }
        | .error _ => .error .invalidHTTPVersion
      else
        .error .malformedStatusLine
    | _ => .error .malformedStatusLine

/-- `StatusLine::write_to` (status_line.rs:72) as the bytes written:
`HTTP/major.minor SP code SP reason CRLF`. -/
def StatusLine.write_bytes (sl : StatusLine) : List Nat :=
  ascii "HTTP/" ++ natToBytes sl.version.1 ++ [46] ++
    natToBytes sl.version.2 ++ [32] ++ sl.status_code.to_code ++ [32] ++
    sl.status_code.to_reason ++ CRLFb

/-! ## Response and serialization, from `src/src/message/response.rs` -/

/-- `Response` from response.rs:10. -/
structure Response where
  status_line : StatusLine
  headers : Headers
  body : List Nat
deriving DecidableEq, Repr

/-- `Response::internal_error` (response.rs:46): the canonical 500 with
no headers and an empty body. -/
def Response.internal_error : Response :=
  { status_line := StatusLine.new .internalServerError
    headers := Headers.new
    body := [] }

/-- Lexicographic byte-string order, the `Ord` used by `keys.sort()` on
ASCII strings. -/
def bytesLe : List Nat → List Nat → Bool
  | [], _ => true
  | _ :: _, [] => false
  | a :: as_, b :: bs =>
    if a < b then true
    else if b < a then false
    else bytesLe as_ bs

/-- Insert into a list sorted by `bytesLe` on the keys. -/
def insertByKey (e : List Nat × List Nat) :
    List (List Nat × List Nat) → List (List Nat × List Nat)
  | [] => [e]
  | x :: xs =>
    if bytesLe e.1 x.1 then e :: x :: xs else x :: insertByKey e xs

/-- Sort entries by key, as `keys.sort()` before serialization. -/
def sortEntries : List (List Nat × List Nat) → List (List Nat × List Nat)
  | [] => []
  | e :: rest => insertByKey e (sortEntries rest)

/-- The field lines `name: value CRLF` for each entry in sorted order. -/
def headerLines (h : Headers) : List Nat :=
  (sortEntries h.entries).foldr
    (fun e acc => e.1 ++ ascii ": " ++ e.2 ++ CRLFb ++ acc) []

/-- Modelled from the spec: the async `Headers::write_to` awaited by
`Response::write_to` (response.rs:38) is not under src (headers.rs:125
holds an earlier synchronous draft).  Per the serialization contract it
emits each field as `name: value CRLF` in sorted key order followed by
the header block terminator CRLF; the terminator is emitted also for an
empty map, as the test at response.rs:214 fixes. -/
def Headers.write_bytes (h : Headers) : List Nat :=
  headerLines h ++ CRLFb

/-- `Response::write_to` (response.rs:32) as the bytes written: status
line, then `Content-Length` set to the body length when the body is
non-empty, then the header block, then the body bytes when non-empty. -/
def Response.write_to (r : Response) : List Nat :=
  let headers1 :=
    if r.body.isEmpty then r.headers
    else r.headers.set (ascii "Content-Length") (natToBytes r.body.length)
  r.status_line.write_bytes ++ headers1.write_bytes ++
    (if r.body.isEmpty then [] else r.body)

/-! ## Connection-side request line

`Connection::read` (connection.rs:42) parses the request line with
`RequestLine::from_line`, whose file is not under src: only its caller
and its tests are.  Its request line carries an `HttpVersion` pair (the
connection tests compare it against `(1, 1)`). -/

/-- Modelled from the spec: the Connection-variant `RequestLine`, with
the version an `HttpVersion` pair as in version.rs. -/
structure RequestLineC where
  method : Method
  url : List Nat
  version : Nat × Nat
deriving DecidableEq, Repr

/-- Modelled from the spec: `RequestLine::from_line`, absent from src
(only its caller connection.rs:45 is).  Per spec section 4.2: split the
line on single SP, require exactly three tokens, a strict method match,
and a third token `HTTP/<version>` resolved by `HttpVersion::from_bytes`
(version.rs:9, embedded above); unknown versions fail with
InvalidHttpVersion, a malformed shape or method with
MalformedRequestLine. -/
def RequestLineC.from_line (line : List Nat) :
    Except RequestLineError RequestLineC :=
  match splitOnByte 32 line with
  | [p0, p1, p2] =>
    match Method.parse p0 with
    | .error _ => .error .malformedRequestLine
    | .ok method =>
      match splitOnByte 47 p2 with
      | [v0, v1] =>
        if v0 = ascii "HTTP" then
          match HttpVersion.fromBytes v1 with
          | .ok version =>
            .ok { method := method, url := p1, version := version }
          | .error _ => .error .invalidHTTPVersion
        else
          .error .malformedRequestLine
      | _ => .error .malformedRequestLine
  | _ => .error .malformedRequestLine

/-- The Connection-variant `Request` handled by the server loop
(connection.rs:60): the draft `Request` with the connection request
line. -/
structure RequestC where
  line : RequestLineC
  headers : Headers
  body : List Nat
deriving DecidableEq, Repr

/-- `Method::to_str` (method.rs:30), as bytes. -/
def Method.to_str : Method → List Nat
  | .get => ascii "GET"
  | .head => ascii "HEAD"
  | .post => ascii "POST"
  | .put => ascii "PUT"
  | .delete => ascii "DELETE"
  | .connect => ascii "CONNECT"
  | .options => ascii "OPTIONS"
  | .trace => ascii "TRACE"

/-- `RequestLine::write_to` as the bytes written, the format string of
request_line.rs:26-32 (`METHOD SP target SP HTTP/version CRLF`) with the
Connection-variant version pair rendered `major.minor` as by the
`HttpVersion` Display of version.rs:58. -/
def RequestLineC.write_bytes (rl : RequestLineC) : List Nat :=
  rl.method.to_str ++ [32] ++ rl.url ++ [32] ++ ascii "HTTP/" ++
    natToBytes rl.version.1 ++ [46] ++ natToBytes rl.version.2 ++ CRLFb

/-- Modelled from the spec: `Request::write_to`, awaited by
`Connection::send` (connection.rs:105) but absent from src.  Per spec
section 4.5 it mirrors `Response::write_to` (response.rs:32): write the
request line, set `Content-Length` to the body length when the body is
non-empty, write the header block with its terminator, then the body
bytes when non-empty. -/
def RequestC.write_to (r : RequestC) : List Nat :=
  let headers1 :=
    if r.body.isEmpty then r.headers
    else r.headers.set (ascii "Content-Length") (natToBytes r.body.length)
  r.line.write_bytes ++ headers1.write_bytes ++
    (if r.body.isEmpty then [] else r.body)

/-! ## Server keep-alive policy, from `src/src/server/mod.rs` -/

/-- Modelled from the spec: `Headers::field_contains_value`, called by
`should_close` (server/mod.rs:132) but absent from src.  Per the spec it
treats the stored value as a comma-separated list and tests
case-insensitive token membership; list elements are compared after
trimming surrounding whitespace. -/
def Headers.field_contains_value (h : Headers) (name v : List Nat) :
    Bool :=
  match h.get name with
  | none => false
  | some value =>
    (splitOnByte 44 value).any
      (fun tok => toLowerBytes (strTrim tok) == toLowerBytes v)

/-- `should_close` (server/mod.rs:131): the persistent-connection
decision taken after each served request. -/
def should_close (req : RequestC) (resp : Response) : Bool :=
  if req.line.version == (1, 0) &&
      !(req.headers.field_contains_value (ascii "Connection")
        (ascii "keep-alive")) then
    true
  else if req.headers.field_contains_value (ascii "Connection")
      (ascii "close") then
    true
  else if resp.headers.field_contains_value (ascii "Connection")
      (ascii "close") then
    true
  else
    false

/-! ## Helper lemmas -/

theorem take_min_length {α : Type} (l : List α) (n : Nat) :
    l.take (min n l.length) = l.take n := by
  induction l generalizing n with
  | nil => simp
  | cons a as ih =>
    cases n with
    | zero => simp
    | succ m =>
      simp only [List.length_cons, List.take_succ_cons, Nat.succ_min_succ]
      rw [ih]

theorem splitOnByte_no_sep (sep : Nat) (l : List Nat) (h : sep ∉ l) :
    splitOnByte sep l = [l] := by
  induction l with
  | nil => rfl
  | cons b rest ih =>
    have hb : b ≠ sep := fun hbe => h (hbe ▸ List.mem_cons_self b rest)
    have hr : sep ∉ rest := fun hm => h (List.mem_cons_of_mem b hm)
    simp only [splitOnByte, if_neg hb, ih hr]

theorem splitOnByte_append_sep (sep : Nat) (a rest : List Nat)
    (h : sep ∉ a) :
    splitOnByte sep (a ++ sep :: rest) = a :: splitOnByte sep rest := by
  induction a with
  | nil => simp [splitOnByte]
  | cons b as ih =>
    have hb : b ≠ sep := fun hbe => h (hbe ▸ List.mem_cons_self b as)
    have ha : sep ∉ as := fun hm => h (List.mem_cons_of_mem b hm)
    simp only [List.cons_append, splitOnByte, if_neg hb, ih ha]
    cases hs : splitOnByte sep (as ++ sep :: rest) with
    | nil =>
      exfalso
      rw [ih ha] at hs
      exact List.cons_ne_nil _ _ hs
    | cons t ts =>
      rw [ih ha] at hs
      injection hs with h1 h2
      rw [h1, h2]

theorem getEntry_setEntry_self (key value : List Nat)
    (es : List (List Nat × List Nat)) :
    getEntry key (setEntry key value es) = some value := by
  induction es with
  | nil => simp [setEntry, getEntry]
  | cons e rest ih =>
    by_cases he : e.1 = key
    · simp [setEntry, getEntry, he]
    · simp [setEntry, getEntry, he, ih]

theorem getEntry_setEntry_ne (key key' value : List Nat)
    (es : List (List Nat × List Nat)) (h : key' ≠ key) :
    getEntry key' (setEntry key value es) = getEntry key' es := by
  induction es with
  | nil =>
    simp only [setEntry, getEntry]
    rw [if_neg (fun hc : key = key' => h hc.symm)]
  | cons e rest ih =>
    by_cases he : e.1 = key
    · simp only [setEntry, if_pos he, getEntry]
      rw [if_neg (fun hc : key = key' => h hc.symm),
        if_neg (fun hc : e.1 = key' => h (hc ▸ he))]
    · simp only [setEntry, if_neg he, getEntry]
      by_cases he' : e.1 = key'
      · rw [if_pos he', if_pos he']
      · rw [if_neg he', if_neg he', ih]

theorem getEntry_remove_self (key : List Nat)
    (es : List (List Nat × List Nat)) :
    getEntry key (es.filter (fun e => decide (e.1 ≠ key))) = none := by
  induction es with
  | nil => rfl
  | cons e rest ih =>
    rw [List.filter_cons]
    by_cases he : e.1 = key
    · have hd : (decide (e.1 ≠ key)) = false := by simp [he]
      rw [hd]
      simpa using ih
    · have hd : (decide (e.1 ≠ key)) = true := by simp [he]
      rw [hd]
      simp only [if_pos rfl, getEntry, if_neg he]
      exact ih

theorem getEntry_remove_ne (key key' : List Nat)
    (es : List (List Nat × List Nat)) (h : key' ≠ key) :
    getEntry key' (es.filter (fun e => decide (e.1 ≠ key))) =
      getEntry key' es := by
  induction es with
  | nil => rfl
  | cons e rest ih =>
    rw [List.filter_cons]
    by_cases he : e.1 = key
    · have hd : (decide (e.1 ≠ key)) = false := by simp [he]
      rw [hd]
      simp only [Bool.false_eq_true, if_false, getEntry,
        if_neg (fun hc : e.1 = key' => h (hc ▸ he))]
      exact ih
    · have hd : (decide (e.1 ≠ key)) = true := by simp [he]
      rw [hd]
      simp only [if_pos rfl, getEntry]
      by_cases he' : e.1 = key'
      · rw [if_pos he', if_pos he']
      · rw [if_neg he', if_neg he', ih]

theorem headers_set_remove_get (h : Headers) (n1 n2 v : List Nat)
    (hne : toLowerBytes n1 ≠ toLowerBytes n2) :
    ((h.set n1 v).remove n2).get n1 = some v ∧
      ((h.set n1 v).remove n2).get n2 = none := by
  constructor
  · unfold Headers.get Headers.remove Headers.set
    rw [getEntry_remove_ne _ _ _ hne, getEntry_setEntry_self]
  · unfold Headers.get Headers.remove Headers.set
    rw [getEntry_remove_self]

theorem mem_setEntry (key value : List Nat)
    (es : List (List Nat × List Nat)) (e : List Nat × List Nat)
    (h : e ∈ setEntry key value es) : e = (key, value) ∨ e ∈ es := by
  induction es with
  | nil =>
    simp only [setEntry, List.mem_singleton] at h
    exact Or.inl h
  | cons x rest ih =>
    by_cases hx : x.1 = key
    · simp only [setEntry, if_pos hx, List.mem_cons] at h
      rcases h with h | h
      · exact Or.inl h
      · exact Or.inr (List.mem_cons_of_mem x h)
    · simp only [setEntry, if_neg hx, List.mem_cons] at h
      rcases h with h | h
      · exact Or.inr (h ▸ List.mem_cons_self x rest)
      · rcases ih h with h1 | h1
        · exact Or.inl h1
        · exact Or.inr (List.mem_cons_of_mem x h1)

theorem is_valid_token_toLower (bs : List Nat)
    (h : is_valid_token bs = true) :
    is_valid_token (toLowerBytes bs) = true := by
  simp only [is_valid_token, List.all_eq_true, toLowerBytes,
    List.mem_map, forall_exists_index, and_imp] at *
  intro b x hx hbx
  have := h x hx
  subst hbx
  unfold toLowerByte
  split
  · rename_i hrange
    simp only [Bool.or_eq_true, decide_eq_true_eq, Bool.and_eq_true,
      beq_iff_eq] at *
    omega
  · exact this

theorem all_beq_iff (first : List Nat) (rest : List (List Nat)) :
    rest.all (fun v => v == first) = true ↔ ∀ t ∈ rest, t = first := by
  simp [List.all_eq_true]

/-! ## Claim theorems -/

/-- C1: `should_close` closes the connection exactly when the request
version is HTTP/1.0 and the request Connection field lacks the
keep-alive token, or the request Connection field contains the close
token, or the response Connection field contains the close token;
otherwise the connection is kept open. -/
theorem should_close_policy (req : RequestC) (resp : Response) :
    should_close req resp = true ↔
      (req.line.version = (1, 0) ∧
        req.headers.field_contains_value (ascii "Connection")
          (ascii "keep-alive") = false) ∨
      req.headers.field_contains_value (ascii "Connection")
        (ascii "close") = true ∨
      resp.headers.field_contains_value (ascii "Connection")
        (ascii "close") = true := by
  unfold should_close
  by_cases h1 : req.line.version = (1, 0) <;>
    by_cases h2 : req.headers.field_contains_value (ascii "Connection")
      (ascii "keep-alive") = true <;>
    by_cases h3 : req.headers.field_contains_value (ascii "Connection")
      (ascii "close") = true <;>
    by_cases h4 : resp.headers.field_contains_value (ascii "Connection")
      (ascii "close") = true <;>
    simp_all [Bool.not_eq_true, beq_iff_eq]

/-- C3: the streaming chunked decoder of `BodyParser` is not independent
of fragmentation.  Decoding `4 CRLF 1 CR LF 1 CRLF 0 CRLF CRLF`, with
the read fragment ending one byte after the four chunk-data bytes, the
size line is consumed correctly, but the data step then consumes all
five buffered bytes `1 CR LF 1 CR` into the body, including the CR of
the chunk delimiter, leaving `size_parsed = 5` above the chunk size 4
(the next step underflows `size - size_parsed`), where the claim
requires the body `1 CR LF 1` for every partition. -/
theorem chunked_decoder_absorbs_delimiter_cr :
    (BodyParser.mk (some .chunked) .size 0).parse_body []
        ⟨[(ascii "transfer-encoding", ascii "chunked")]⟩
        (ascii "4\r\n1\r\n1\r") =
      .ok (BodyParser.mk (some .chunked) (.data 4) 0, [],
        ⟨[(ascii "transfer-encoding", ascii "chunked")]⟩, 3, false) ∧
    (BodyParser.mk (some .chunked) (.data 4) 0).parse_body []
        ⟨[(ascii "transfer-encoding", ascii "chunked")]⟩
        (ascii "1\r\n1\r") =
      .ok (BodyParser.mk (some .chunked) (.data 4) 5, ascii "1\r\n1\r",
        ⟨[(ascii "transfer-encoding", ascii "chunked")]⟩, 5, false) := by
  exact ⟨rfl, rfl⟩

/-- C5 counterexample: a Content-Length list whose tokens deviate, such
as `2,1,1`, is rejected with InvalidHeaderFields, not with the
InvalidContentLength the claim states. -/
theorem content_length_list_deviation_error_kind :
    BodyParser.new.set_encoding
        ⟨[(ascii "content-length", ascii "2,1,1")]⟩ =
      .error (.header .invalidHeaderFields) ∧
    BodyParser.new.set_encoding
        ⟨[(ascii "content-length", ascii "2,1,1")]⟩ ≠
      .error (.header .invalidContentLength) := by
  refine ⟨rfl, ?_⟩
  intro hc
  rw [show BodyParser.new.set_encoding
      ⟨[(ascii "content-length", ascii "2,1,1")]⟩ =
      .error (.header .invalidHeaderFields) from rfl] at hc
  simp at hc

/-- C7: status-line parsing splits on SP and accepts only two or three
parts, so the multi-word reason line `HTTP/1.1 404 Not Found` is
rejected with MalformedStatusLine, although the two-part line and a
single-word reason parse; the connection test at connection.rs:303
feeds exactly this four-part line and expects success. -/
theorem status_line_multiword_reason_rejected :
    StatusLine.from_line (ascii "HTTP/1.1 404 Not Found") =
      .error .malformedStatusLine ∧
    StatusLine.from_line (ascii "HTTP/1.1 404") =
      .ok { version := (1, 1), status_code := .notFound } ∧
    StatusLine.from_line (ascii "HTTP/1.1 404 NotFound") =
      .ok { version := (1, 1), status_code := .notFound } := by
  exact ⟨rfl, rfl, rfl⟩

/-- C8 counterexample: the field line `:v` has an empty name part, yet
`Headers::parse` accepts it, because the tchar check is vacuously true
on the empty name, and it inserts an entry under the empty name. -/
theorem empty_header_name_accepted :
    Headers.new.parse (ascii ":v\r\n") =
      .ok (4, ⟨[([], ascii "v")]⟩) ∧
    (Headers.mk [([], ascii "v")]).get [] = some (ascii "v") := by
  exact ⟨rfl, rfl⟩

/-- C9: every serialized Request and Response consists of its start
line, the sorted header field lines, the blank CRLF header-block
terminator, and only then the body bytes when the body is non-empty;
in particular the canonical 500 of `Response::internal_error`, with no
headers and an empty body, still emits the terminating blank CRLF
after its status line. -/
theorem message_serialization_structure :
    (∀ r : Response,
      r.write_to =
        r.status_line.write_bytes ++
          headerLines (if r.body.isEmpty then r.headers
            else r.headers.set (ascii "Content-Length")
              (natToBytes r.body.length)) ++
          CRLFb ++ (if r.body.isEmpty then [] else r.body)) ∧
    (∀ q : RequestC,
      q.write_to =
        q.line.write_bytes ++
          headerLines (if q.body.isEmpty then q.headers
            else q.headers.set (ascii "Content-Length")
              (natToBytes q.body.length)) ++
          CRLFb ++ (if q.body.isEmpty then [] else q.body)) ∧
    Response.internal_error.write_to =
      ascii "HTTP/1.1 500 Internal Server Error\r\n\r\n" := by
  refine ⟨?_, ?_, rfl⟩
  · intro r
    simp only [Response.write_to, Headers.write_bytes, List.append_assoc]
  · intro q
    simp only [RequestC.write_to, Headers.write_bytes, List.append_assoc]

/-- C4: whenever the parsed headers contain both a Transfer-Encoding
field and a Content-Length field, framing resolution fails with
InvalidHeaderFields before any framing is chosen, and a full message
carrying both fields fails to parse with that error. -/
theorem conflicting_framing_headers_rejected :
    (∀ (p : BodyParser) (h : Headers) (t c : List Nat),
      p.encoding = none →
      h.get (ascii "Transfer-Encoding") = some t →
      h.get (ascii "Content-Length") = some c →
      p.set_encoding h = .error (.header .invalidHeaderFields)) ∧
    request_from_bytes (ascii
        "GET / HTTP/1.1\r\nContent-Length: 2\r\nTransfer-Encoding: chunked\r\n\r\nAB") =
      .error (.header .invalidHeaderFields) := by
  constructor
  · intro p h t c hp ht hc
    unfold BodyParser.set_encoding
    rw [hp, ht, hc]
    rfl
  · rfl

/-- C4 witness: the conflict rule applied to a concrete parser and
header map carrying both framing fields. -/
theorem conflicting_framing_headers_rejected_witness :
    BodyParser.new.set_encoding
        ⟨[(ascii "transfer-encoding", ascii "chunked"),
          (ascii "content-length", ascii "2")]⟩ =
      .error (.header .invalidHeaderFields) :=
  conflicting_framing_headers_rejected.1 BodyParser.new
    ⟨[(ascii "transfer-encoding", ascii "chunked"),
      (ascii "content-length", ascii "2")]⟩
    (ascii "chunked") (ascii "2") rfl rfl rfl

/-- C2: when the chunked decoder reads the zero-size chunk line it
terminates, sets Content-Length in the headers to the byte length of
the buffered body and removes Transfer-Encoding; in particular the
chunked request of the spec scenario parses to the 12-byte body
`AB1234567890` with Content-Length 12 set and Transfer-Encoding
removed. -/
theorem chunked_termination_normalizes_headers :
    (∀ (p : BodyParser) (body : List Nat) (h : Headers)
        (bytes : List Nat) (e : Nat),
      p.chunked_state = .size →
      crlfPos bytes = some e →
      parseHexUsize (bytes.take e) = some 0 →
      ∃ p1 h1,
        p.parse_chunked_body body h bytes = .ok (p1, body, h1, e + 2, true) ∧
        h1.get (ascii "Content-Length") = some (natToBytes body.length) ∧
        h1.get (ascii "Transfer-Encoding") = none) ∧
    (∃ (rp : RequestParser) (n : Nat),
      request_from_bytes (ascii
          "GET / HTTP/1.1\r\nTransfer-Encoding: chunked\r\n\r\n2\r\nAB\r\nA\r\n1234567890\r\n0\r\n\r\n") =
        .ok (rp, n) ∧
      rp.request.body = ascii "AB1234567890" ∧
      rp.request.headers.get (ascii "Content-Length") = some (ascii "12") ∧
      rp.request.headers.get (ascii "Transfer-Encoding") = none ∧
      rp.state = .done) := by
  constructor
  · intro p body h bytes e hst hcrlf hhex
    refine ⟨{ p with chunked_state := .data 0, size_parsed := 0 },
      (h.set (ascii "Content-Length") (natToBytes body.length)).remove
        (ascii "Transfer-Encoding"), ?_, ?_, ?_⟩
    · unfold BodyParser.parse_chunked_body
      rw [hcrlf, hst]
      dsimp only
      rw [hhex]
      rfl
    · exact (headers_set_remove_get h _ _ _ (by decide)).1
    · exact (headers_set_remove_get h _ _ _ (by decide)).2
  · exact ⟨_, _, rfl, rfl, rfl, rfl, rfl⟩

/-- C2 witness: the zero-chunk normalization applied to a concrete
decoder state holding the two-byte body `AB`. -/
theorem chunked_termination_normalizes_headers_witness :
    ∃ (p1 : BodyParser) (h1 : Headers),
      (BodyParser.mk (some .chunked) .size 0).parse_chunked_body
          (ascii "AB") ⟨[(ascii "transfer-encoding", ascii "chunked")]⟩
          (ascii "0\r\n") =
        .ok (p1, ascii "AB", h1, 1 + 2, true) ∧
      h1.get (ascii "Content-Length") =
        some (natToBytes (ascii "AB").length) ∧
      h1.get (ascii "Transfer-Encoding") = none :=
  chunked_termination_normalizes_headers.1
    (BodyParser.mk (some .chunked) .size 0) (ascii "AB")
    ⟨[(ascii "transfer-encoding", ascii "chunked")]⟩ (ascii "0\r\n") 1
    rfl rfl rfl

/-- C5 amended: when the Content-Length value does not parse directly,
resolution splits the value on commas and trims each token; a deviation
among the tokens fails with InvalidHeaderFields, a common token that is
non-numeric fails with InvalidContentLength, and a common numeric token
resolves to length framing of that size. -/
theorem content_length_list_resolution (p : BodyParser) (h : Headers)
    (v first : List Nat) (rest : List (List Nat))
    (hp : p.encoding = none)
    (hTE : h.get (ascii "Transfer-Encoding") = none)
    (hCL : h.get (ascii "Content-Length") = some v)
    (hpu : parseUsize v = none)
    (hsplit : (splitOnByte 44 v).map strTrim = first :: rest) :
    ((∃ t ∈ rest, t ≠ first) →
      p.set_encoding h = .error (.header .invalidHeaderFields)) ∧
    ((∀ t ∈ rest, t = first) → parseUsize first = none →
      p.set_encoding h = .error (.header .invalidContentLength)) ∧
    (∀ n, (∀ t ∈ rest, t = first) → parseUsize first = some n →
      p.set_encoding h = .ok { p with encoding := some (.nothing n) }) := by
  have hbase : p.set_encoding h =
      (if (rest.all fun t => t == first) = true then
        match parseUsize first with
        | some len => .ok { p with encoding := some (.nothing len) }
        | none => .error (.header .invalidContentLength)
      else .error (.header .invalidHeaderFields)) := by
    unfold BodyParser.set_encoding
    rw [hp, hTE, hCL]
    dsimp only
    rw [hpu]
    dsimp only
    rw [hsplit]
    rfl
  refine ⟨?_, ?_, ?_⟩
  · rintro ⟨t, htm, htne⟩
    have hall : (rest.all fun t => t == first) = false := by
      rw [← Bool.not_eq_true, all_beq_iff]
      intro hc
      exact htne (hc t htm)
    rw [hbase, hall]
    rfl
  · intro hall hpf
    rw [hbase, (all_beq_iff first rest).mpr hall, hpf]
    rfl
  · intro n hall hpf
    rw [hbase, (all_beq_iff first rest).mpr hall, hpf]
    rfl

/-- C5 witness: the list rule applied to the concrete values `2,2,2`
(resolving to length framing of size 2) and `2,1,1` (rejected). -/
theorem content_length_list_resolution_witness :
    BodyParser.new.set_encoding
        ⟨[(ascii "content-length", ascii "2,2,2")]⟩ =
      .ok { BodyParser.new with encoding := some (.nothing 2) } ∧
    BodyParser.new.set_encoding
        ⟨[(ascii "content-length", ascii "2,1,1")]⟩ =
      .error (.header .invalidHeaderFields) :=
  ⟨(content_length_list_resolution BodyParser.new
      ⟨[(ascii "content-length", ascii "2,2,2")]⟩
      (ascii "2,2,2") (ascii "2") [ascii "2", ascii "2"]
      rfl rfl rfl rfl rfl).2.2 2 (by decide) rfl,
   (content_length_list_resolution BodyParser.new
      ⟨[(ascii "content-length", ascii "2,1,1")]⟩
      (ascii "2,1,1") (ascii "2") [ascii "1", ascii "1"]
      rfl rfl rfl rfl rfl).1 ⟨ascii "1", by decide, by decide⟩⟩

/-- The recognized outputs of `HttpVersion::from_bytes`. -/
theorem fromBytes_ok (v : List Nat) (q : Nat × Nat)
    (h : HttpVersion.fromBytes v = .ok q) :
    q = (1, 0) ∨ q = (1, 1) ∨ q = (2, 0) ∨ q = (3, 0) := by
  unfold HttpVersion.fromBytes at h
  split at h
  · exact Or.inl (Except.ok.inj h).symm
  · split at h
    · exact Or.inr (Or.inl (Except.ok.inj h).symm)
    · split at h
      · exact Or.inr (Or.inr (Or.inl (Except.ok.inj h).symm))
      · split at h
        · exact Or.inr (Or.inr (Or.inr (Except.ok.inj h).symm))
        · exact absurd h (by simp)

/-- C6: a request line whose third token is `HTTP/<version>` with an
unrecognized version is rejected with InvalidHttpVersion, and a
successfully parsed request line never carries an unrecognized
version. -/
theorem request_line_unknown_version_rejected :
    (∀ (m u v : List Nat) (M : Method),
      Method.parse m = .ok M →
      32 ∉ m → 32 ∉ u → 32 ∉ v → 47 ∉ v →
      HttpVersion.fromBytes v = .error .invalidHTTPVersion →
      RequestLineC.from_line
          (m ++ 32 :: (u ++ 32 :: (ascii "HTTP/" ++ v))) =
        .error .invalidHTTPVersion) ∧
    (∀ (line : List Nat) (rl : RequestLineC),
      RequestLineC.from_line line = .ok rl →
      rl.version = (1, 0) ∨ rl.version = (1, 1) ∨
        rl.version = (2, 0) ∨ rl.version = (3, 0)) := by
  constructor
  · intro m u v M hM hm hu hv hv47 hver
    have h32t : (32 : Nat) ∉ ascii "HTTP/" ++ v := by
      intro hmem
      rcases List.mem_append.mp hmem with hh | hh
      · exact absurd hh (by decide)
      · exact hv hh
    unfold RequestLineC.from_line
    rw [splitOnByte_append_sep 32 m _ hm,
      splitOnByte_append_sep 32 u _ hu,
      splitOnByte_no_sep 32 _ h32t]
    dsimp only
    rw [hM]
    dsimp only
    rw [show ascii "HTTP/" ++ v = ascii "HTTP" ++ 47 :: v from rfl,
      splitOnByte_append_sep 47 (ascii "HTTP") v (by decide),
      splitOnByte_no_sep 47 v hv47]
    dsimp only
    rw [if_pos rfl, hver]
  · intro line rl h
    unfold RequestLineC.from_line at h
    repeat' split at h
    all_goals try exact Except.noConfusion h
    rename_i version heq
    rw [← Except.ok.inj h]
    exact fromBytes_ok _ _ heq

/-- C6 witness: the rejection applied to the concrete request line
`GET / HTTP/9.9`. -/
theorem request_line_unknown_version_rejected_witness :
    RequestLineC.from_line
        (ascii "GET" ++ 32 :: (ascii "/" ++ 32 ::
          (ascii "HTTP/" ++ ascii "9.9"))) =
      .error .invalidHTTPVersion :=
  request_line_unknown_version_rejected.1 (ascii "GET") (ascii "/")
    (ascii "9.9") .get rfl (by decide) (by decide) (by decide) (by decide)
    rfl

/-- `Headers::add` preserves the all-tchar-key invariant when the added
name is all tchar (keys are lowercased and tchar is closed under ASCII
lowercasing). -/
theorem add_preserves_tchar (h : Headers) (name value : List Nat)
    (hinv : ∀ e ∈ h.entries, is_valid_token e.1 = true)
    (hname : is_valid_token name = true) :
    ∀ e ∈ (h.add name value).entries, is_valid_token e.1 = true := by
  intro e he
  unfold Headers.add at he
  dsimp only at he
  rcases hget : getEntry (toLowerBytes name) h.entries with _ | old <;>
    rw [hget] at he <;> dsimp only at he
  · rcases List.mem_append.mp he with hm | hm
    · exact hinv e hm
    · rw [List.mem_singleton.mp hm]
      exact is_valid_token_toLower name hname
  · rcases mem_setEntry _ _ _ _ he with hm | hm
    · rw [hm]
      exact is_valid_token_toLower name hname
    · exact hinv e hm

/-- C8 amended: field-line parsing validates names against the tchar
class only, so every header map reachable by parsing field lines from
an all-tchar map again maps only names consisting solely of tchar
bytes; the name may, however, be empty, as the counterexample shows. -/
theorem parsed_header_names_tchar (h : Headers) (bytes : List Nat)
    (n : Nat) (h1 : Headers)
    (hinv : ∀ e ∈ h.entries, is_valid_token e.1 = true)
    (hp : h.parse bytes = .ok (n, h1)) :
    ∀ e ∈ h1.entries, is_valid_token e.1 = true := by
  unfold Headers.parse at hp
  split at hp
  · rw [← (Prod.mk.inj (Except.ok.inj hp)).2]
    exact hinv
  · split at hp
    · rw [← (Prod.mk.inj (Except.ok.inj hp)).2]
      exact hinv
    · split at hp
      · exact Except.noConfusion hp
      · rename_i nameBytes valueRaw heqsp
        dsimp only at hp
        split at hp
        · rename_i hvalid
          rw [← (Prod.mk.inj (Except.ok.inj hp)).2]
          exact add_preserves_tchar h nameBytes _ hinv
            ((Bool.and_eq_true _ _).mp hvalid).1
        · exact Except.noConfusion hp

/-- C8 amended witness: parsing the field line `Host: x` onto the empty
map yields the map with the single key `host`, which is all tchar. -/
theorem parsed_header_names_tchar_witness :
    is_valid_token [104, 111, 115, 116] = true :=
  parsed_header_names_tchar Headers.new (ascii "Host: x\r\n") 9
    ⟨[([104, 111, 115, 116], ascii "x")]⟩ (fun e he => absurd he
      (List.not_mem_nil e)) rfl ([104, 111, 115, 116], ascii "x")
    (List.mem_singleton.mpr rfl)

/-- C10: under length framing with Content-Length `len` and a buffered
body of at most `len` bytes, `parse_body` appends exactly
`min (len - body.length) bytes.length` input bytes to the body, reports
exactly that many bytes consumed, reports done exactly when the body
reaches `len` bytes, and never grows the body beyond `len`. -/
theorem length_framing_parse_body (p : BodyParser) (h : Headers)
    (body bytes : List Nat) (len : Nat)
    (henc : p.encoding = some (.nothing len))
    (hle : body.length ≤ len) :
    p.parse_body body h bytes =
      .ok (p, body ++ bytes.take (len - body.length), h,
        min (len - body.length) bytes.length,
        ((body ++ bytes.take (len - body.length)).length == len)) ∧
    (body ++ bytes.take (len - body.length)).length =
      body.length + min (len - body.length) bytes.length ∧
    (body ++ bytes.take (len - body.length)).length ≤ len := by
  have hse : p.set_encoding h = .ok p := by
    unfold BodyParser.set_encoding
    rw [henc]
    rfl
  have hlen : (body ++ bytes.take (len - body.length)).length =
      body.length + min (len - body.length) bytes.length := by
    simp [List.length_append, List.length_take]
  have hbound : (body ++ bytes.take (len - body.length)).length ≤ len := by
    rw [hlen]
    have := Nat.min_le_left (len - body.length) bytes.length
    omega
  refine ⟨?_, hlen, hbound⟩
  have hstep : p.parse_body body h bytes =
      match p.encoding with
      | some (.nothing 0) => .ok (p, body, h, 0, true)
      | some (.nothing len) =>
        if len - body.length = 0 then .ok (p, body, h, 0, true)
        else
          .ok (p, body ++ bytes.take (min (len - body.length) bytes.length),
            h, min (len - body.length) bytes.length,
            ((body ++
              bytes.take (min (len - body.length) bytes.length)).length ==
              len))
      | some .chunked => p.parse_chunked_body body h bytes
      | none => .error (.header .invalidContentLength) := by
    unfold BodyParser.parse_body
    rw [hse]
    rfl
  rw [hstep, henc]
  cases len with
  | zero =>
    have hb : body = [] := List.length_eq_zero.mp (Nat.le_zero.mp hle)
    subst hb
    simp
  | succ len0 =>
    show (if len0 + 1 - body.length = 0 then
        Except.ok (p, body, h, 0, true)
      else
        Except.ok (p,
          body ++ bytes.take (min (len0 + 1 - body.length) bytes.length),
          h, min (len0 + 1 - body.length) bytes.length,
          ((body ++
            bytes.take (min (len0 + 1 - body.length)
              bytes.length)).length == len0 + 1))) = _
    by_cases hr : len0 + 1 - body.length = 0
    · rw [if_pos hr, hr]
      have hbl : body.length = len0 + 1 := by omega
      simp [hbl]
    · rw [if_neg hr, take_min_length bytes (len0 + 1 - body.length)]

/-- C10 witness: the length-framing step applied to a concrete parser
owing three more bytes than the two already buffered, handed six. -/
theorem length_framing_parse_body_witness :
    (BodyParser.mk (some (.nothing 5)) .size 0).parse_body (ascii "AB")
        Headers.new (ascii "CDEFGH") =
      .ok (BodyParser.mk (some (.nothing 5)) .size 0,
        ascii "AB" ++ (ascii "CDEFGH").take (5 - (ascii "AB").length),
        Headers.new, min (5 - (ascii "AB").length) (ascii "CDEFGH").length,
        ((ascii "AB" ++
          (ascii "CDEFGH").take (5 - (ascii "AB").length)).length == 5)) :=
  (length_framing_parse_body (BodyParser.mk (some (.nothing 5)) .size 0)
    Headers.new (ascii "AB") (ascii "CDEFGH") 5 rfl (by decide)).1
